import Mathlib

/-!
# Verification of the drone-control core

A shallow embedding, over `ℚ`, of the core of the `drone_control` repository:
the obstacle world and 2-D ray caster (`core/environment.py`), the simulated
drone backend (`core/simulator.py`), the waypoint executor
(`autopilot/flight_plan.py`) and the reactive obstacle-avoidance policy
(`autopilot/obstacle_avoidance.py`).

Real-valued quantities of the Python code are modelled as rationals.  The
transcendental functions the code calls (`math.cos`, `math.sin`, `math.sqrt`)
are passed into the embedded functions as oracle parameters: the embedded
control flow never depends on analytic properties of those functions other
than the ones stated as explicit hypotheses, so every theorem below holds for
the idealised real-valued program as well.
-/

namespace DroneControl

/-- Truncation toward zero, the behaviour of Python's `int(...)` cast on a
real number. -/
def pyInt (q : ℚ) : ℤ := if 0 ≤ q then ⌊q⌋ else ⌈q⌉

/-- Python's `%` on reals: `qmod a b = a - b * ⌊a / b⌋`, which for `b > 0`
lands in `[0, b)` whatever the sign of `a`. -/
def qmod (a b : ℚ) : ℚ := a - b * ⌊a / b⌋

/-! ## Obstacles and the environment (`core/environment.py`) -/

/-- Obstacle kinds (`ObstacleType` in `environment.py`). -/
inductive ObstacleType
  | building
  | tree
  | wall
  | pillar
deriving DecidableEq, Repr

/-- An obstacle (`Obstacle` dataclass): an axis-aligned box, or a vertical
cylinder when `is_cylindrical` is set (then `width` is the diameter and
`depth` is ignored). -/
structure Obstacle where
  x : ℚ
  y : ℚ
  z_base : ℚ
  width : ℚ
  depth : ℚ
  height : ℚ
  obstacle_type : ObstacleType := .building
  is_cylindrical : Bool := false
deriving DecidableEq, Repr

/-- `Obstacle.overlaps_altitude`: query altitude `z` is within the obstacle's
vertical range, up to `margin`. -/
def Obstacle.overlapsAltitude (o : Obstacle) (z : ℚ) (margin : ℚ) : Bool :=
  decide (o.z_base ≤ z + margin ∧ z - margin ≤ o.z_base + o.height)

/-- `EPS = 1e-9`, the parallel-axis threshold of `_ray_aabb_intersect`. -/
def slabEps : ℚ := 1 / 1000000000

/-- `1e18`, the finite sentinel the source substitutes for `∞` on a parallel
axis whose slab contains the origin. -/
def slabBig : ℚ := 1000000000000000000

/-- One axis of `_ray_aabb_intersect`: `none` when the ray is parallel to the
slab (`|dir| < EPS`) and the origin lies outside it, otherwise the ordered
pair `(t_min, t_max)` for this axis (the sentinels `(-1e18, 1e18)` in the
parallel in-slab case). -/
def axisSlab (lo hi org dir : ℚ) : Option (ℚ × ℚ) :=
  if |dir| < slabEps then
    if org < lo ∨ org > hi then none else some (-slabBig, slabBig)
  else
    let t1 := (lo - org) / dir
    let t2 := (hi - org) / dir
    some (min t1 t2, max t1 t2)

/-- The combine stage of `_ray_aabb_intersect`: `t_enter = max` of the per-axis
`t_min`s, `t_exit = min` of the per-axis `t_max`s; miss iff
`t_enter > t_exit` or `t_exit < 0`; hit distance `t_enter` if `t_enter ≥ 0`
else `t_exit`; reject iff `t > max_range` or `t < 0`. -/
def slabCombine (maxRange : ℚ) :
    Option (ℚ × ℚ) → Option (ℚ × ℚ) → Option ℚ
  | some (a1, b1), some (a2, b2) =>
      let tEnter := max a1 a2
      let tExit := min b1 b2
      if tEnter > tExit ∨ tExit < 0 then none
      else
        let t := if 0 ≤ tEnter then tEnter else tExit
        if t > maxRange ∨ t < 0 then none else some t
  | _, _ => none

/-- `Obstacle._ray_aabb_intersect`: the slab-method 2-D ray/AABB test of the
source. -/
def Obstacle.rayAabbIntersect (o : Obstacle) (ox oy dx dy maxRange : ℚ) :
    Option ℚ :=
  slabCombine maxRange
    (axisSlab (o.x - o.width / 2) (o.x + o.width / 2) ox dx)
    (axisSlab (o.y - o.depth / 2) (o.y + o.depth / 2) oy dy)

/-- `Obstacle._ray_circle_intersect`: the quadratic ray/disc test of the
source.  `sq` is the oracle standing for `math.sqrt` (applied to the
discriminant). -/
def Obstacle.rayCircleIntersect (sq : ℚ → ℚ) (o : Obstacle)
    (ox oy dx dy maxRange : ℚ) : Option ℚ :=
  let radius := o.width / 2
  let fx := ox - o.x
  let fy := oy - o.y
  let a := dx * dx + dy * dy
  let b := 2 * (fx * dx + fy * dy)
  let c := fx * fx + fy * fy - radius * radius
  let discriminant := b * b - 4 * a * c
  if discriminant < 0 then none
  else
    let sqrtDisc := sq discriminant
    let t1 := (-b - sqrtDisc) / (2 * a)
    let t2 := (-b + sqrtDisc) / (2 * a)
    let t := if 0 ≤ t1 then t1 else t2
    if t < 0 ∨ t > maxRange then none else some t

/-- `Obstacle.ray_intersect_2d`: dispatch on `is_cylindrical`. -/
def Obstacle.rayIntersect2d (sq : ℚ → ℚ) (o : Obstacle)
    (ox oy dx dy maxRange : ℚ) : Option ℚ :=
  if o.is_cylindrical then o.rayCircleIntersect sq ox oy dx dy maxRange
  else o.rayAabbIntersect ox oy dx dy maxRange

/-- The per-obstacle contribution to a ray cast: `none` when the altitude gate
(margin 30, the default of `overlaps_altitude`) rejects the obstacle,
otherwise the 2-D intersection result.  This is the body of the loop in
`Environment.ray_cast`. -/
def rayHit (sq : ℚ → ℚ) (oz ox oy dx dy maxRange : ℚ) (o : Obstacle) :
    Option ℚ :=
  if o.overlapsAltitude oz 30 then o.rayIntersect2d sq ox oy dx dy maxRange
  else none

/-- One iteration of the `ray_cast` accumulator update: replace the current
`(nearest_dist, nearest_obs)` only on a strictly closer hit. -/
def rayCastStep (sq : ℚ → ℚ) (oz ox oy dx dy maxRange : ℚ)
    (acc : ℚ × Option Obstacle) (o : Obstacle) : ℚ × Option Obstacle :=
  match rayHit sq oz ox oy dx dy maxRange o with
  | some t => if t < acc.1 then (t, some o) else acc
  | none => acc

/-- `Environment.ray_cast`: fold the update over the obstacle list (insertion
order), starting from `(max_range, None)`.  The direction `(dx, dy)` stands
for `(cos angle, sin angle)` computed by the source. -/
def rayCast (sq : ℚ → ℚ) (env : List Obstacle)
    (ox oy oz dx dy maxRange : ℚ) : ℚ × Option Obstacle :=
  env.foldl (rayCastStep sq oz ox oy dx dy maxRange) (maxRange, none)

/-! ### The slab method with true infinities (the spec's description)

The spec describes the AABB test with a parallel in-slab axis contributing
`t_min = −∞, t_max = +∞`.  We realise that description literally, encoding a
possibly-infinite lower bound as `Option ℚ` (`none` = `−∞`) and a
possibly-infinite upper bound as `Option ℚ` (`none` = `+∞`), and compare it
with the source's finite-sentinel version above. -/

/-- Maximum of two lower bounds, `none` standing for `−∞`. -/
def lowMax : Option ℚ → Option ℚ → Option ℚ
  | none, b => b
  | a, none => a
  | some a, some b => some (max a b)

/-- Minimum of two upper bounds, `none` standing for `+∞`. -/
def highMin : Option ℚ → Option ℚ → Option ℚ
  | none, b => b
  | a, none => a
  | some a, some b => some (min a b)

/-- One axis of the spec's wording: a parallel axis whose slab contains the
origin contributes `(−∞, +∞)`. -/
def axisSlabSpec (lo hi org dir : ℚ) : Option (Option ℚ × Option ℚ) :=
  if |dir| < slabEps then
    if org < lo ∨ org > hi then none else some (none, none)
  else
    let t1 := (lo - org) / dir
    let t2 := (hi - org) / dir
    some (some (min t1 t2), some (max t1 t2))

/-- The combine stage over possibly-infinite bounds: miss iff
`t_enter > t_exit` or `t_exit < 0` (comparisons with an infinite bound are
never misses); hit distance `t_enter` if `t_enter ≥ 0` else `t_exit`; reject
iff `t > max_range` or `t < 0` (`t = +∞` always rejects). -/
def slabCombineSpec (maxRange : ℚ) :
    Option (Option ℚ × Option ℚ) → Option (Option ℚ × Option ℚ) → Option ℚ
  | some (a1, b1), some (a2, b2) =>
      let tEnter := lowMax a1 a2
      let tExit := highMin b1 b2
      let miss : Bool :=
        (match tEnter, tExit with
         | some a, some b => decide (a > b)
         | _, _ => false) ||
        (match tExit with
         | some b => decide (b < 0)
         | none => false)
      if miss then none
      else
        let t : Option ℚ :=
          match tEnter with
          | some a => if 0 ≤ a then some a else tExit
          | none => tExit
        match t with
        | some tv => if tv > maxRange ∨ tv < 0 then none else some tv
        | none => none
  | _, _ => none

/-- The 2-D slab method exactly as the spec words it, with true `±∞`
contributions from parallel axes. -/
def Obstacle.raySlabSpec (o : Obstacle) (ox oy dx dy maxRange : ℚ) :
    Option ℚ :=
  slabCombineSpec maxRange
    (axisSlabSpec (o.x - o.width / 2) (o.x + o.width / 2) ox dx)
    (axisSlabSpec (o.y - o.depth / 2) (o.y + o.depth / 2) oy dy)

/-- `Environment.check_collision`: does a sphere at `(x, y, z)` of radius
`radius` meet any obstacle?  (`sq` is the `math.sqrt` oracle of the
cylindrical branch.) -/
def checkCollision (sq : ℚ → ℚ) (env : List Obstacle)
    (x y z radius : ℚ) : Bool :=
  env.any fun o =>
    o.overlapsAltitude z radius &&
      (if o.is_cylindrical then
        decide (sq ((x - o.x) ^ 2 + (y - o.y) ^ 2) < o.width / 2 + radius)
      else
        decide (|x - o.x| < o.width / 2 + radius ∧
                |y - o.y| < o.depth / 2 + radius))

/-! ## Avoidance policy (`autopilot/obstacle_avoidance.py`) -/

/-- Zone `z` (0–4) of a depth scan of `n` rays: `depths[start:end]` with
`start = z * (n // 5)` and `end = start + n // 5` for zones 0–3, `end = n`
for zone 4 (the remainder goes to the last zone). -/
def zoneSlice (n : ℕ) (depths : List ℚ) (z : ℕ) : List ℚ :=
  let zs := n / 5
  if z < 4 then (depths.drop (z * zs)).take zs
  else (depths.drop (4 * zs)).take (n - 4 * zs)

/-- The five per-zone minimum depths, `none` when some zone is empty (where
the Python `min(zone_depths)` would raise `ValueError`). -/
def zoneMins (n : ℕ) (depths : List ℚ) : Option (ℚ × ℚ × ℚ × ℚ × ℚ) :=
  match (zoneSlice n depths 0).min?, (zoneSlice n depths 1).min?,
        (zoneSlice n depths 2).min?, (zoneSlice n depths 3).min?,
        (zoneSlice n depths 4).min? with
  | some z0, some z1, some z2, some z3, some z4 => some (z0, z1, z2, z3, z4)
  | _, _, _, _, _ => none

/-- `SAFETY_DISTANCE = 100` cm. -/
def safetyDistance : ℚ := 100

/-- `CRITICAL_DISTANCE = 50` cm. -/
def criticalDistance : ℚ := 50

/-- `CRUISE_SPEED = 45` RC units. -/
def cruiseSpeed : ℤ := 45

/-- `AutonomousNavigator._compute_commands`: the avoidance-aware
`(yaw_cmd, fwd_cmd, alt_cmd)` RC triple, or `none` when a zone of the depth
scan is empty (the Python code would raise).  `yaw` and `z` are the drone's
heading and altitude, `goalBearing` and `goalAlt` the bearing and altitude of
the destination. -/
def computeCommands (depths : List ℚ) (n : ℕ) (yaw z goalBearing goalAlt : ℚ) :
    Option (ℤ × ℤ × ℤ) :=
  match zoneMins n depths with
  | none => none
  | some (z0, z1, z2, z3, z4) =>
      let centerClear := z2
      let bestLeft := max z0 z1
      let bestRight := max z3 z4
      let headingError := qmod (goalBearing - yaw + 180) 360 - 180
      let altError := goalAlt - z
      let altCmd : ℤ := pyInt (max (-30) (min 30 (altError * (1 / 2))))
      let yawCmd : ℤ := pyInt (max (-60) (min 60 (headingError * (4 / 5))))
      let fwdCmd : ℤ := cruiseSpeed
      if centerClear < criticalDistance then
        -- CRITICAL: back up and turn hard
        let yawCmd := if bestLeft > bestRight then (-70 : ℤ) else 70
        some (yawCmd, -20, altCmd)
      else if centerClear < safetyDistance then
        -- CAUTION: slow down and steer around
        let ratio := centerClear / safetyDistance
        let fwdCmd := max 10 (pyInt ((cruiseSpeed : ℚ) * ratio))
        let yawCmd : ℤ :=
          if headingError < 0 then
            if bestLeft > criticalDistance then -50
            else if bestRight > criticalDistance then 50
            else if bestLeft ≥ bestRight then -50 else 50
          else
            if bestRight > criticalDistance then 50
            else if bestLeft > criticalDistance then -50
            else if bestRight ≥ bestLeft then 50 else -50
        some (yawCmd, fwdCmd, altCmd)
      else
        -- CLEAR: cruise toward the goal, with peripheral nudges
        let yawCmd := if z0 < safetyDistance * (3 / 5) then max yawCmd 15 else yawCmd
        let yawCmd := if z4 < safetyDistance * (3 / 5) then min yawCmd (-15) else yawCmd
        some (yawCmd, fwdCmd, altCmd)

/-- The RC 4-tuple the navigation loop emits from a command triple:
`send_rc(0, fwd_cmd, alt_cmd, yaw_cmd)` — the lateral stick is always 0. -/
def navRcOf (cmds : ℤ × ℤ × ℤ) : ℤ × ℤ × ℤ × ℤ :=
  (0, cmds.2.1, cmds.2.2, cmds.1)

/-! ## Simulated drone backend (`core/simulator.py`) -/

/-- The mutable fields of `DroneState` the invariant speaks about. -/
structure SimState where
  x : ℚ
  y : ℚ
  z : ℚ
  yaw : ℚ
  speed : ℚ
  battery : ℚ
  temperature : ℚ
  is_flying : Bool
  is_connected : Bool
deriving DecidableEq, Repr

/-- Fresh `DroneState()`: grounded at the origin, full battery, 25 °C. -/
def initState : SimState :=
  { x := 0, y := 0, z := 0, yaw := 0, speed := 0, battery := 100,
    temperature := 25, is_flying := false, is_connected := false }

/-- A `SimulatedDrone`: the drone state, the speed setpoint `_speed`
(initially `MOVE_SPEED = 50`) and the latched RC values `_rc_values`. -/
structure SimDrone where
  state : SimState
  speedSet : ℚ
  rc : ℚ × ℚ × ℚ × ℚ
deriving DecidableEq, Repr

/-- A freshly constructed `SimulatedDrone()`. -/
def initDrone : SimDrone := { state := initState, speedSet := 50, rc := (0, 0, 0, 0) }

/-- `SimulatedDrone._drain_battery`: `seconds` of actuated flight drain
`0.5 %/s` of battery (floored at 0) and add `0.1 °C/s` (capped at 45). -/
def drainBattery (st : SimState) (seconds : ℚ) : SimState :=
  { st with
    battery := max 0 (st.battery - seconds * (1 / 2)),
    temperature := min 45 (st.temperature + seconds * (1 / 10)) }

/-- `connect`: set connected, reset battery to 100 and temperature to 25. -/
def SimDrone.connect (d : SimDrone) : SimDrone :=
  { d with state := { d.state with
      is_connected := true, battery := 100, temperature := 25 } }

/-- `emergency_stop`: stop the RC loop (zeroing the latched values) and
unconditionally clear flying, ground and stop. -/
def SimDrone.emergencyStop (d : SimDrone) : SimDrone :=
  { d with
    rc := (0, 0, 0, 0),
    state := { d.state with is_flying := false, z := 0, speed := 0 } }

/-- `disconnect`: `emergency_stop` then clear connected. -/
def SimDrone.disconnect (d : SimDrone) : SimDrone :=
  let d := d.emergencyStop
  { d with state := { d.state with is_connected := false } }

/-- `takeoff`: requires connected and not flying; hover at 80 cm. -/
def SimDrone.takeoff (d : SimDrone) : SimDrone :=
  if d.state.is_connected && !d.state.is_flying then
    { d with state := { d.state with is_flying := true, z := 80 } }
  else d

/-- `land`: stop the RC loop; then, if flying, ground and stop. -/
def SimDrone.land (d : SimDrone) : SimDrone :=
  let d := { d with rc := (0, 0, 0, 0) }
  if d.state.is_flying then
    { d with state := { d.state with is_flying := false, z := 0, speed := 0 } }
  else d

/-- The six movement directions of `move`. -/
inductive MoveDir
  | forward
  | back
  | left
  | right
  | up
  | down
deriving DecidableEq, Repr

/-- `move(direction, distance_cm)`: body-frame translation by `dist`, with
`(c, s)` the oracle values of `(cos yaw, sin yaw)`.  A negative distance makes
the source's `time.sleep` raise before any mutation, so the state is
unchanged; otherwise the position is updated (z floored at 0) and the battery
drained for `dist / speed_setpoint` seconds. -/
def SimDrone.move (d : SimDrone) (dir : MoveDir) (dist : ℚ) (c s : ℚ) :
    SimDrone :=
  if !d.state.is_flying then d
  else if dist < 0 then d
  else
    let (dx, dy, dz) :=
      match dir with
      | .forward => (dist * c, dist * s, (0 : ℚ))
      | .back => (-dist * c, -dist * s, 0)
      | .left => (dist * s, -dist * c, 0)
      | .right => (-dist * s, dist * c, 0)
      | .up => (0, 0, dist)
      | .down => (0, 0, -dist)
    let dur := dist / d.speedSet
    let moved := { d.state with
      x := d.state.x + dx, y := d.state.y + dy,
      z := max 0 (d.state.z + dz) }
    { d with state := drainBattery moved dur }

/-- `rotate(degrees)`: requires flying; add to yaw modulo 360. -/
def SimDrone.rotate (d : SimDrone) (degrees : ℚ) : SimDrone :=
  if d.state.is_flying then
    { d with state := { d.state with yaw := qmod (d.state.yaw + degrees) 360 } }
  else d

/-- `set_speed`: clamp the setpoint to `[10, 100]`. -/
def SimDrone.setSpeed (d : SimDrone) (speed : ℚ) : SimDrone :=
  { d with speedSet := max 10 (min 100 speed) }

/-- `send_rc`: latch the four stick values, each clamped to `[-100, 100]`. -/
def SimDrone.sendRc (d : SimDrone) (lr fb ud yawRate : ℚ) : SimDrone :=
  let clamp := fun (v : ℚ) => max (-100) (min 100 v)
  { d with rc := (clamp lr, clamp fb, clamp ud, clamp yawRate) }

/-- One interpolation substep of `go_to`, at fraction `frac` of the segment
from `(sx, sy, sz)` to the target, holding the commanded speed and draining
the battery for `dt` seconds. -/
def goToStep (sx sy sz tx ty tz speed dt : ℚ) (frac : ℚ) (d : SimDrone) :
    SimDrone :=
  let moved := { d.state with
    x := sx + (tx - sx) * frac,
    y := sy + (ty - sy) * frac,
    z := max 0 (sz + (tz - sz) * frac),
    speed := speed }
  { d with state := drainBattery moved dt }

/-- `go_to(x, y, z, speed)`: requires flying; returns immediately when the
straight-line distance (`dist`, the oracle value of the source's
`math.sqrt`) is below 1 cm, otherwise interpolates in
`steps = max(int(10 · dist / max(speed, 10)), 1)` substeps. -/
def SimDrone.goTo (d : SimDrone) (tx ty tz speed : ℚ) (dist : ℚ) : SimDrone :=
  if !d.state.is_flying then d
  else if dist < 1 then d
  else
    let sx := d.state.x
    let sy := d.state.y
    let sz := d.state.z
    let dur := dist / max speed 10
    let steps := max (pyInt (dur * 10)).toNat 1
    let dt := dur / steps
    (List.range steps).foldl
      (fun acc i => goToStep sx sy sz tx ty tz speed dt ((i + 1 : ℕ) / (steps : ℚ)) acc)
      d

/-- One tick of `SimulatedDrone._rc_loop` (interval `0.05 s`): integrate the
latched RC sticks.  `(c, s)` are the oracle values of
`(cos yaw, sin yaw)` and `norm` the oracle value of
`math.sqrt(lr² + fb² + ud²)`.  When not flying the loop breaks without
touching the state. -/
def SimDrone.rcTick (d : SimDrone) (c s norm : ℚ) : SimDrone :=
  if !d.state.is_flying then d
  else
    let (lr, fb, ud, yawRate) := d.rc
    let interval : ℚ := 1 / 20
    let scale := d.speedSet * interval / 100
    let moved := { d.state with
      x := d.state.x + (fb * c - lr * s) * scale,
      y := d.state.y + (fb * s + lr * c) * scale,
      z := max 0 (d.state.z + ud * scale),
      yaw := qmod (d.state.yaw + yawRate * (9 / 10) * interval) 360,
      speed := norm * d.speedSet / 100 }
    { d with state := drainBattery moved interval }

/-- The state invariant of the spec (§8, invariants 1–2). -/
def stateInv (st : SimState) : Prop :=
  0 ≤ st.battery ∧ st.battery ≤ 100 ∧ 0 ≤ st.z ∧
  0 ≤ st.yaw ∧ st.yaw < 360 ∧ st.temperature ≤ 45 ∧
  (st.is_flying = true → st.is_connected = true)

/-- The full backend invariant: the state invariant plus the speed setpoint's
own range (`MOVE_SPEED = 50` initially, thereafter clamped to `[10, 100]` by
`set_speed`). -/
def droneInv (d : SimDrone) : Prop :=
  stateInv d.state ∧ 10 ≤ d.speedSet ∧ d.speedSet ≤ 100

/-! ## Flight plans and the autopilot (`autopilot/flight_plan.py`) -/

/-- `WaypointStatus`. -/
inductive WaypointStatus
  | pending
  | active
  | reached
  | skipped
deriving DecidableEq, Repr

/-- `Waypoint`. -/
structure Waypoint where
  x : ℤ
  y : ℤ
  z : ℤ
  speed : ℤ := 50
  hoverTime : ℚ := 0
  status : WaypointStatus := .pending
deriving DecidableEq, Repr

/-- `FlightPlanStatus`. -/
inductive FlightPlanStatus
  | idle
  | running
  | paused
  | completed
  | aborted
deriving DecidableEq, Repr

/-- `FlightPlan`. -/
structure FlightPlan where
  name : String
  waypoints : List Waypoint := []
  loop : Bool := false
  status : FlightPlanStatus := .idle
  currentIndex : ℕ := 0
deriving DecidableEq, Repr

/-- `Autopilot.load_plan`: rejected when the currently loaded plan is RUNNING
(the raise happens before any mutation); on acceptance the incoming plan is
reset to IDLE with `current_index = 0` and every waypoint PENDING. -/
def loadPlan (cur : Option FlightPlan) (p : FlightPlan) :
    Except String FlightPlan :=
  match cur with
  | some q =>
      if q.status = .running then
        .error "A flight plan is already running - abort it first"
      else
        .ok { p with
          status := .idle, currentIndex := 0,
          waypoints := p.waypoints.map fun w => { w with status := .pending } }
  | none =>
      .ok { p with
        status := .idle, currentIndex := 0,
        waypoints := p.waypoints.map fun w => { w with status := .pending } }

/-- The autopilot's loaded plan after a `load_plan` call: the accepted plan on
success, the previous plan untouched when the call raised. -/
def planAfterLoad (cur : Option FlightPlan) (p : FlightPlan) :
    Option FlightPlan :=
  match loadPlan cur p with
  | .ok q => some q
  | .error _ => cur

/-! ## Sample scenes used to instantiate the theorems -/

/-- A 4×4 box centred at `(5, 0)`, 100 cm tall: a ray east from the origin
enters it at distance 3. -/
def boxA : Obstacle := { x := 5, y := 0, z_base := 0, width := 4, depth := 4, height := 70 }

/-- A 2×2 box whose near face sits at `x = 5`. -/
def tieBoxNear : Obstacle := { x := 6, y := 0, z_base := 0, width := 2, depth := 2, height := 100 }

/-- A 6×6 box whose near face also sits at `x = 5`. -/
def tieBoxFar : Obstacle := { x := 8, y := 0, z_base := 0, width := 6, depth := 6, height := 100 }

/-- The default scene's first tree: a 50 cm-diameter cylinder at
`(60, 280)`, 250 cm tall. -/
def treeA : Obstacle :=
  { x := 60, y := 280, z_base := 0, width := 50, depth := 50, height := 250,
    obstacle_type := .tree, is_cylindrical := true }

/-- A connected drone hovering at 80 cm with sticks latched at
`(lr, fb, ud, yaw) = (3, 4, 0, 90)`. -/
def flyingDrone : SimDrone :=
  { state := { initState with is_flying := true, is_connected := true, z := 80 },
    speedSet := 50, rc := (3, 4, 0, 90) }

/-- A plan whose waypoint statuses and index are deliberately dirty. -/
def samplePlan : FlightPlan :=
  { name := "demo",
    waypoints := [{ x := 0, y := 0, z := 100, speed := 50, hoverTime := 0,
                    status := .active }],
    loop := false, status := .aborted, currentIndex := 7 }

/-- The plan `load_plan` produces from `samplePlan`. -/
def loadedSample : FlightPlan :=
  { samplePlan with
    status := .idle, currentIndex := 0,
    waypoints := samplePlan.waypoints.map fun w => { w with status := .pending } }

/-- A currently RUNNING plan. -/
def runningPlan : FlightPlan := { name := "run", status := .running }

/-! ## Basic lemmas -/

theorem qmod_nonneg (a : ℚ) {b : ℚ} (hb : 0 < b) : 0 ≤ qmod a b := by
  have h := Int.floor_le (a / b)
  have hab : (⌊a / b⌋ : ℚ) * b ≤ a := by
    calc (⌊a / b⌋ : ℚ) * b ≤ (a / b) * b :=
          mul_le_mul_of_nonneg_right h (le_of_lt hb)
      _ = a := by field_simp
  unfold qmod; nlinarith

theorem qmod_lt (a : ℚ) {b : ℚ} (hb : 0 < b) : qmod a b < b := by
  have h := Int.lt_floor_add_one (a / b)
  have hab : a < ((⌊a / b⌋ : ℚ) + 1) * b := by
    calc a = (a / b) * b := by field_simp
      _ < ((⌊a / b⌋ : ℚ) + 1) * b := mul_lt_mul_of_pos_right h hb
  unfold qmod; nlinarith

theorem slabBig_pos : (0 : ℚ) < slabBig := by norm_num [slabBig]

/-! ## The slab method: finite sentinels vs true infinities (claim C3) -/

/-- The two per-axis computations miss, go parallel-inside, or produce the
same ordered finite bounds, in lockstep. -/
theorem axisSlab_cases (lo hi org dir : ℚ) :
    (axisSlab lo hi org dir = none ∧ axisSlabSpec lo hi org dir = none) ∨
    (axisSlab lo hi org dir = some (-slabBig, slabBig) ∧
      axisSlabSpec lo hi org dir = some (none, none)) ∨
    (∃ a b, a ≤ b ∧ axisSlab lo hi org dir = some (a, b) ∧
      axisSlabSpec lo hi org dir = some (some a, some b)) := by
  unfold axisSlab axisSlabSpec
  split_ifs with h1 h2
  · exact Or.inl ⟨rfl, rfl⟩
  · exact Or.inr (Or.inl ⟨rfl, rfl⟩)
  · exact Or.inr (Or.inr ⟨_, _, min_le_max, rfl, rfl⟩)

theorem slabCombine_none_left (maxR : ℚ) (x : Option (ℚ × ℚ)) :
    slabCombine maxR none x = none := by
  rcases x with _ | ⟨a, b⟩ <;> rfl

theorem slabCombine_none_right (maxR : ℚ) (x : Option (ℚ × ℚ)) :
    slabCombine maxR x none = none := by
  rcases x with _ | ⟨a, b⟩ <;> rfl

theorem slabCombineSpec_none_left (maxR : ℚ) (x : Option (Option ℚ × Option ℚ)) :
    slabCombineSpec maxR none x = none := by
  rcases x with _ | ⟨a, b⟩ <;> rfl

theorem slabCombineSpec_none_right (maxR : ℚ) (x : Option (Option ℚ × Option ℚ)) :
    slabCombineSpec maxR x none = none := by
  rcases x with _ | ⟨a, b⟩ <;> rfl

theorem slabCombine_comm (maxR : ℚ) (x y : Option (ℚ × ℚ)) :
    slabCombine maxR x y = slabCombine maxR y x := by
  rcases x with _ | ⟨a1, b1⟩ <;> rcases y with _ | ⟨a2, b2⟩ <;>
    simp only [slabCombine]
  rw [max_comm a2 a1, min_comm b2 b1]

theorem slabCombineSpec_comm (maxR : ℚ) (x y : Option (Option ℚ × Option ℚ)) :
    slabCombineSpec maxR x y = slabCombineSpec maxR y x := by
  rcases x with _ | ⟨a1, b1⟩ <;> rcases y with _ | ⟨a2, b2⟩ <;>
    simp only [slabCombineSpec]
  have hl : lowMax a2 a1 = lowMax a1 a2 := by
    rcases a1 with _ | a <;> rcases a2 with _ | a' <;>
      simp [lowMax, max_comm]
  have hh : highMin b2 b1 = highMin b1 b2 := by
    rcases b1 with _ | b <;> rcases b2 with _ | b' <;>
      simp [highMin, min_comm]
  rw [hl, hh]

/-- On two finite axes the sentinel combine and the infinite combine coincide
verbatim. -/
theorem slabCombine_fin_fin (maxR a1 b1 a2 b2 : ℚ) :
    slabCombine maxR (some (a1, b1)) (some (a2, b2)) =
      slabCombineSpec maxR (some (some a1, some b1)) (some (some a2, some b2)) := by
  simp only [slabCombine, slabCombineSpec, lowMax, highMin]
  by_cases hmiss : max a1 a2 > min b1 b2 ∨ min b1 b2 < 0
  · rcases hmiss with h | h <;> simp [h]
  · push_neg at hmiss
    simp [not_lt.mpr hmiss.1, not_lt.mpr hmiss.2, hmiss.1, hmiss.2]
    split_ifs <;> simp_all

/-- Parallel-inside x-axis, finite y-axis: the sentinel combine equals the
infinite combine as long as `max_range < 1e18`. -/
theorem slabCombine_par_fin (maxR a b : ℚ) (hab : a ≤ b)
    (hM : maxR < slabBig) :
    slabCombine maxR (some (-slabBig, slabBig)) (some (a, b)) =
      slabCombineSpec maxR (some (none, none)) (some (some a, some b)) := by
  have hE : (0 : ℚ) < slabBig := slabBig_pos
  simp only [slabCombine, slabCombineSpec, lowMax, highMin]
  by_cases hb0 : b < 0
  · -- exit below zero: both miss
    have h1 : min slabBig b = b := min_eq_right (le_of_lt (lt_trans hb0 hE))
    simp [h1, hb0]
  · push_neg at hb0
    have hexit : 0 ≤ min slabBig b := le_min (le_of_lt hE) hb0
    have hg1 : ¬ ((a : ℚ) > b) := not_lt.mpr hab
    have hg2 : ¬ ((b : ℚ) < 0) := not_lt.mpr hb0
    by_cases ha0 : 0 ≤ a
    · -- entering forward
      have henter : max (-slabBig) a = a :=
        max_eq_right (le_trans (by linarith) ha0)
      by_cases haE : a ≤ slabBig
      · -- no code miss; both produce `a`, rejected iff beyond range
        have hne : ¬ (max (-slabBig) a > min slabBig b ∨ min slabBig b < 0) := by
          push_neg
          exact ⟨by rw [henter]; exact le_min haE hab, hexit⟩
        rw [if_neg hne, henter, if_pos ha0]
        simp [hg1, hg2, ha0]
      · -- `a` beyond the sentinel: code misses, spec rejects beyond range
        push_neg at haE
        have hmiss : max (-slabBig) a > min slabBig b := by
          rw [henter]
          exact lt_of_le_of_lt (min_le_left _ _) haE
        have hrej : maxR < a := lt_trans hM haE
        rw [if_pos (Or.inl hmiss)]
        simp [hg1, hg2, ha0, hrej]
    · -- entering backward: both return the exit distance
      push_neg at ha0
      have henter : max (-slabBig) a < 0 := by
        apply max_lt _ ha0; linarith
      have hne : ¬ (max (-slabBig) a > min slabBig b ∨ min slabBig b < 0) := by
        push_neg
        exact ⟨le_trans (le_of_lt henter) hexit, hexit⟩
      rw [if_neg hne, if_neg (not_le.mpr henter)]
      by_cases hbE : b ≤ slabBig
      · rw [min_eq_right hbE]
        simp [hg1, hg2, not_le.mpr ha0]
      · push_neg at hbE
        rw [min_eq_left (le_of_lt hbE)]
        have h1 : maxR < slabBig := hM
        have h2 : maxR < b := lt_trans hM hbE
        rw [if_pos (Or.inl h1)]
        simp [hg1, hg2, not_le.mpr ha0, h2]

/-- Both axes parallel-inside: both versions reject (the code's `1e18` exit
exceeds `max_range`, the spec's `+∞` always does). -/
theorem slabCombine_par_par (maxR : ℚ) (hM : maxR < slabBig) :
    slabCombine maxR (some (-slabBig, slabBig)) (some (-slabBig, slabBig)) = none ∧
    slabCombineSpec maxR (some ((none : Option ℚ), (none : Option ℚ)))
      (some ((none : Option ℚ), (none : Option ℚ))) = none := by
  have hE : (0 : ℚ) < slabBig := slabBig_pos
  constructor
  · simp only [slabCombine]
    have hne : ¬ (max (-slabBig) (-slabBig) > min slabBig slabBig ∨
        min slabBig slabBig < 0) := by
      push_neg
      constructor
      · simp; linarith
      · simp; linarith
    rw [if_neg hne]
    have h1 : ¬ (0 : ℚ) ≤ max (-slabBig) (-slabBig) := by simp; linarith
    rw [if_neg h1]
    have h2 : min slabBig slabBig > maxR := by simp [hM]
    rw [if_pos (Or.inl h2)]
  · rfl

/-- **Claim C3 (amended).**  The source's `_ray_aabb_intersect` follows the
spec's slab method except that a parallel in-slab axis contributes the finite
sentinels `±1e18` rather than `±∞`; for every `max_range < 1e18` the two
versions agree exactly (miss iff `t_enter > t_exit` or `t_exit < 0`, hit
distance `t_enter` if `t_enter ≥ 0` else `t_exit` — the interior-origin exit
distance — and rejection iff the distance exceeds `max_range` or is
negative). -/
theorem rayAabb_eq_slabSpec (o : Obstacle) (ox oy dx dy maxR : ℚ)
    (hM : maxR < 1000000000000000000) :
    o.rayAabbIntersect ox oy dx dy maxR = o.raySlabSpec ox oy dx dy maxR := by
  have hM' : maxR < slabBig := hM
  unfold Obstacle.rayAabbIntersect Obstacle.raySlabSpec
  rcases axisSlab_cases (o.x - o.width / 2) (o.x + o.width / 2) ox dx with
    ⟨hx, hx'⟩ | ⟨hx, hx'⟩ | ⟨a1, b1, hab1, hx, hx'⟩ <;>
  rcases axisSlab_cases (o.y - o.depth / 2) (o.y + o.depth / 2) oy dy with
    ⟨hy, hy'⟩ | ⟨hy, hy'⟩ | ⟨a2, b2, hab2, hy, hy'⟩ <;>
  rw [hx, hx', hy, hy']
  · rw [slabCombine_none_left, slabCombineSpec_none_left]
  · rw [slabCombine_none_left, slabCombineSpec_none_left]
  · rw [slabCombine_none_left, slabCombineSpec_none_left]
  · rw [slabCombine_none_right, slabCombineSpec_none_right]
  · exact (slabCombine_par_par maxR hM').1.trans
      (slabCombine_par_par maxR hM').2.symm
  · exact slabCombine_par_fin maxR a2 b2 hab2 hM'
  · rw [slabCombine_none_right, slabCombineSpec_none_right]
  · rw [slabCombine_comm, slabCombineSpec_comm]
    exact slabCombine_par_fin maxR a1 b1 hab1 hM'
  · exact slabCombine_fin_fin maxR a1 b1 a2 b2

/-- Claim C3 (counterexample): the AABB test does not contribute true
`t_min = −∞, t_max = +∞` on a parallel in-slab axis.  For a box a little
beyond `1e18` cm along the y axis, a ray cast straight up the y axis with
`max_range = 3e18` misses under the source's `±1e18` sentinels
(`t_enter = 2e18 > 1e18 = t_exit`), while the spec's `±∞` slab method hits it
at distance `2e18 ≤ max_range`. -/
theorem rayAabb_sentinel_cex :
    Obstacle.rayAabbIntersect
      { x := 0, y := 2000000000000000005, z_base := 0, width := 10,
        depth := 10, height := 10 } 0 0 0 1 3000000000000000000 = none ∧
    Obstacle.raySlabSpec
      { x := 0, y := 2000000000000000005, z_base := 0, width := 10,
        depth := 10, height := 10 } 0 0 0 1 3000000000000000000 =
      some 2000000000000000000 := by
  constructor
  · simp only [Obstacle.rayAabbIntersect, axisSlab, slabCombine, slabEps, slabBig]
    norm_num
  · simp only [Obstacle.raySlabSpec, axisSlabSpec, slabCombineSpec, lowMax, highMin,
      slabEps, slabBig]
    norm_num

/-- Witness for `rayAabb_eq_slabSpec`: at `max_range = 500` the sentinel and
infinite slab methods agree on a concrete box. -/
theorem rayAabb_eq_slabSpec_witness :
    (500 : ℚ) < 1000000000000000000 ∧
    boxA.rayAabbIntersect 0 0 1 0 500 = boxA.raySlabSpec 0 0 1 0 500 :=
  ⟨by norm_num, rayAabb_eq_slabSpec boxA 0 0 1 0 500 (by norm_num)⟩

/-! ## The ray-cast loop (claims C1 and C10) -/

theorem slabCombine_some_bounds (maxR : ℚ) (x y : Option (ℚ × ℚ)) {t : ℚ}
    (h : slabCombine maxR x y = some t) : 0 ≤ t ∧ t ≤ maxR := by
  rcases x with _ | ⟨a1, b1⟩ <;> rcases y with _ | ⟨a2, b2⟩ <;>
    simp only [slabCombine] at h
  · exact Option.noConfusion h
  · exact Option.noConfusion h
  · exact Option.noConfusion h
  · by_cases hmiss : max a1 a2 > min b1 b2 ∨ min b1 b2 < 0
    · rw [if_pos hmiss] at h
      exact Option.noConfusion h
    · rw [if_neg hmiss] at h
      by_cases hrej : (if 0 ≤ max a1 a2 then max a1 a2 else min b1 b2) > maxR ∨
          (if 0 ≤ max a1 a2 then max a1 a2 else min b1 b2) < 0
      · rw [if_pos hrej] at h
        exact Option.noConfusion h
      · rw [if_neg hrej] at h
        push_neg at hrej
        injection h with h
        subst h
        exact ⟨hrej.2, hrej.1⟩

theorem if_none_eq_some {p : Prop} [Decidable p] {x : Option ℚ} {t : ℚ}
    (h : (if p then (none : Option ℚ) else x) = some t) : x = some t := by
  split_ifs at h
  exact h

theorem reject_gate_bounds {maxR u t : ℚ}
    (h : (if u < 0 ∨ u > maxR then (none : Option ℚ) else some u) = some t) :
    0 ≤ t ∧ t ≤ maxR := by
  split_ifs at h with hc
  push_neg at hc
  injection h with h
  subst h
  exact ⟨hc.1, hc.2⟩

theorem rayCircle_some_bounds (sq : ℚ → ℚ) (o : Obstacle)
    (ox oy dx dy maxR : ℚ) {t : ℚ}
    (h : o.rayCircleIntersect sq ox oy dx dy maxR = some t) :
    0 ≤ t ∧ t ≤ maxR := by
  simp only [Obstacle.rayCircleIntersect] at h
  exact reject_gate_bounds (if_none_eq_some h)

theorem rayHit_some_bounds (sq : ℚ → ℚ) (oz ox oy dx dy maxR : ℚ)
    (o : Obstacle) {t : ℚ} (h : rayHit sq oz ox oy dx dy maxR o = some t) :
    0 ≤ t ∧ t ≤ maxR := by
  unfold rayHit at h
  cases hg : o.overlapsAltitude oz 30 with
  | false =>
      rw [hg] at h
      simp at h
  | true =>
      rw [hg] at h
      simp only [if_true] at h
      unfold Obstacle.rayIntersect2d at h
      cases hc : o.is_cylindrical with
      | true =>
          rw [hc] at h
          simp only [if_true] at h
          exact rayCircle_some_bounds sq o ox oy dx dy maxR h
      | false =>
          rw [hc] at h
          simp only [Bool.false_eq_true, if_false] at h
          exact slabCombine_some_bounds maxR _ _ h

theorem rayHit_some_overlaps (sq : ℚ → ℚ) (oz ox oy dx dy maxR : ℚ)
    (o : Obstacle) {t : ℚ} (h : rayHit sq oz ox oy dx dy maxR o = some t) :
    o.overlapsAltitude oz 30 = true := by
  unfold rayHit at h
  cases hg : o.overlapsAltitude oz 30 with
  | false =>
      rw [hg] at h
      simp at h
  | true => rfl

/-- Full characterisation of the `ray_cast` fold from an arbitrary
accumulator: the running nearest distance never increases, ends below every
hit, and either no update happened or the result decomposes at the first
obstacle achieving the final distance. -/
theorem rayCast_fold_char (sq : ℚ → ℚ) (oz ox oy dx dy maxR : ℚ) :
    ∀ (l : List Obstacle) (acc : ℚ × Option Obstacle),
      (l.foldl (rayCastStep sq oz ox oy dx dy maxR) acc).1 ≤ acc.1 ∧
      (∀ o ∈ l, ∀ t, rayHit sq oz ox oy dx dy maxR o = some t →
        (l.foldl (rayCastStep sq oz ox oy dx dy maxR) acc).1 ≤ t) ∧
      (l.foldl (rayCastStep sq oz ox oy dx dy maxR) acc = acc ∨
        ∃ pre o suf, l = pre ++ o :: suf ∧
          rayHit sq oz ox oy dx dy maxR o =
            some (l.foldl (rayCastStep sq oz ox oy dx dy maxR) acc).1 ∧
          (l.foldl (rayCastStep sq oz ox oy dx dy maxR) acc).2 = some o ∧
          (l.foldl (rayCastStep sq oz ox oy dx dy maxR) acc).1 < acc.1 ∧
          ∀ o' ∈ pre, ∀ t, rayHit sq oz ox oy dx dy maxR o' = some t →
            (l.foldl (rayCastStep sq oz ox oy dx dy maxR) acc).1 < t) := by
  intro l
  induction l with
  | nil =>
      intro acc
      refine ⟨le_refl _, ?_, Or.inl rfl⟩
      intro o ho
      exact absurd ho (List.not_mem_nil o)
  | cons o rest ih =>
      intro acc
      have hfold : (o :: rest).foldl (rayCastStep sq oz ox oy dx dy maxR) acc =
          rest.foldl (rayCastStep sq oz ox oy dx dy maxR)
            (rayCastStep sq oz ox oy dx dy maxR acc o) := by
        simp [List.foldl_cons]
      obtain ⟨ih1, ih2, ih3⟩ := ih (rayCastStep sq oz ox oy dx dy maxR acc o)
      rcases hstep : rayHit sq oz ox oy dx dy maxR o with _ | t
      · -- the head obstacle does not hit: the accumulator passes unchanged
        have hacc : rayCastStep sq oz ox oy dx dy maxR acc o = acc := by
          unfold rayCastStep
          rw [hstep]
        rw [hacc] at ih1 ih2 ih3
        rw [hfold, hacc]
        refine ⟨ih1, ?_, ?_⟩
        · intro o' ho' t' ht'
          rcases List.mem_cons.mp ho' with rfl | ho'
          · rw [hstep] at ht'
            exact Option.noConfusion ht'
          · exact ih2 o' ho' t' ht'
        · rcases ih3 with h | ⟨pre, o', suf, hdec, hhit, hsnd, hlt, hpre⟩
          · exact Or.inl h
          · refine Or.inr ⟨o :: pre, o', suf, by rw [hdec, List.cons_append], hhit, hsnd, hlt, ?_⟩
            intro o'' ho'' t' ht'
            rcases List.mem_cons.mp ho'' with rfl | ho''
            · rw [hstep] at ht'
              exact Option.noConfusion ht'
            · exact hpre o'' ho'' t' ht'
      · by_cases hlt : t < acc.1
        · -- strict improvement: the head becomes the new nearest
          have hacc : rayCastStep sq oz ox oy dx dy maxR acc o = (t, some o) := by
            unfold rayCastStep
            rw [hstep]
            exact if_pos hlt
          rw [hacc] at ih1 ih2 ih3
          rw [hfold, hacc]
          refine ⟨le_trans ih1 (le_of_lt hlt), ?_, ?_⟩
          · intro o' ho' t' ht'
            rcases List.mem_cons.mp ho' with rfl | ho'
            · rw [hstep] at ht'
              injection ht' with ht'
              subst ht'
              exact ih1
            · exact ih2 o' ho' t' ht'
          · rcases ih3 with h | ⟨pre, o', suf, hdec, hhit, hsnd, hlt', hpre⟩
            · refine Or.inr ⟨[], o, rest, rfl, ?_, ?_, ?_, ?_⟩
              · rw [h, hstep]
              · rw [h]
              · rw [h]
                exact hlt
              · intro o'' ho''
                exact absurd ho'' (List.not_mem_nil o'')
            · refine Or.inr ⟨o :: pre, o', suf, by rw [hdec, List.cons_append], hhit, hsnd,
                lt_trans hlt' hlt, ?_⟩
              intro o'' ho'' t' ht'
              rcases List.mem_cons.mp ho'' with rfl | ho''
              · rw [hstep] at ht'
                injection ht' with ht'
                subst ht'
                exact hlt'
              · exact hpre o'' ho'' t' ht'
        · -- no improvement: the accumulator passes unchanged
          have hacc : rayCastStep sq oz ox oy dx dy maxR acc o = acc := by
            unfold rayCastStep
            rw [hstep]
            exact if_neg hlt
          rw [hacc] at ih1 ih2 ih3
          rw [hfold, hacc]
          push_neg at hlt
          refine ⟨ih1, ?_, ?_⟩
          · intro o' ho' t' ht'
            rcases List.mem_cons.mp ho' with rfl | ho'
            · rw [hstep] at ht'
              injection ht' with ht'
              subst ht'
              exact le_trans ih1 hlt
            · exact ih2 o' ho' t' ht'
          · rcases ih3 with h | ⟨pre, o', suf, hdec, hhit, hsnd, hlt', hpre⟩
            · exact Or.inl h
            · refine Or.inr ⟨o :: pre, o', suf, by rw [hdec, List.cons_append], hhit, hsnd, hlt', ?_⟩
              intro o'' ho'' t' ht'
              rcases List.mem_cons.mp ho'' with rfl | ho''
              · rw [hstep] at ht'
                injection ht' with ht'
                subst ht'
                exact lt_of_lt_of_le hlt' hlt
              · exact hpre o'' ho'' t' ht'

/-- Claim C1 (amended): `ray_cast` returns `(d, obs)` with `d ≤ max_range`,
`d` below every hit of an altitude-overlapping obstacle; whenever `obs = o`
is returned, `o` overlaps the query altitude, its hit distance is exactly
`d`, `d` is *strictly* below `max_range`, and every obstacle inserted before
`o` either misses or hits strictly farther (so ties at a distance strictly
below `max_range` resolve to insertion order); whenever no obstacle is
returned `d = max_range`.  (A hit at exactly `max_range` is treated as a
miss: the code updates only on `dist < nearest_dist`.) -/
theorem ray_cast_nearest (sq : ℚ → ℚ) (env : List Obstacle)
    (ox oy oz dx dy maxR : ℚ) :
    (rayCast sq env ox oy oz dx dy maxR).1 ≤ maxR ∧
    (∀ o ∈ env, ∀ t, rayHit sq oz ox oy dx dy maxR o = some t →
      (rayCast sq env ox oy oz dx dy maxR).1 ≤ t) ∧
    (∀ o, (rayCast sq env ox oy oz dx dy maxR).2 = some o →
      o.overlapsAltitude oz 30 = true ∧
      rayHit sq oz ox oy dx dy maxR o =
        some (rayCast sq env ox oy oz dx dy maxR).1 ∧
      (rayCast sq env ox oy oz dx dy maxR).1 < maxR ∧
      ∃ pre suf, env = pre ++ o :: suf ∧
        ∀ o' ∈ pre, ∀ t, rayHit sq oz ox oy dx dy maxR o' = some t →
          (rayCast sq env ox oy oz dx dy maxR).1 < t) ∧
    ((rayCast sq env ox oy oz dx dy maxR).2 = none →
      (rayCast sq env ox oy oz dx dy maxR).1 = maxR) := by
  unfold rayCast
  obtain ⟨h1, h2, h3⟩ := rayCast_fold_char sq oz ox oy dx dy maxR env (maxR, none)
  refine ⟨h1, h2, ?_, ?_⟩
  · intro o ho
    rcases h3 with heq | ⟨pre, o', suf, hdec, hhit, hsnd, hlt, hpre⟩
    · rw [heq] at ho
      simp at ho
    · have ho' : o' = o := by
        rw [hsnd] at ho
        injection ho
      rw [ho'] at hhit hdec
      exact ⟨rayHit_some_overlaps sq oz ox oy dx dy maxR o hhit, hhit, hlt,
        pre, suf, hdec, hpre⟩
  · intro hnone
    rcases h3 with heq | ⟨pre, o', suf, hdec, hhit, hsnd, hlt, hpre⟩
    · rw [heq]
    · rw [hsnd] at hnone
      exact Option.noConfusion hnone

/-- Claim C1 (counterexample): two altitude-overlapping boxes are both
pierced at distance exactly `max_range = 5` (their near faces coincide at
`x = 5`), so by the claim the first-inserted box should be returned; the code
instead returns `(5, none)` because the update requires a *strictly* closer
hit than the initial `nearest_dist = max_range`. -/
theorem ray_cast_tie_at_range_cex :
    rayHit (fun q => q) 50 0 0 1 0 5 tieBoxNear = some 5 ∧
    rayHit (fun q => q) 50 0 0 1 0 5 tieBoxFar = some 5 ∧
    rayCast (fun q => q) [tieBoxNear, tieBoxFar] 0 0 50 1 0 5 = (5, none) := by
  refine ⟨?_, ?_, ?_⟩ <;>
    norm_num [rayCast, rayCastStep, rayHit, Obstacle.overlapsAltitude,
      Obstacle.rayIntersect2d, Obstacle.rayAabbIntersect, axisSlab,
      slabCombine, slabEps, slabBig, tieBoxNear, tieBoxFar]

/-- Witness for `ray_cast_nearest`: a ray east from `(0, 0)` at altitude 50
hits `boxA` at distance 3, and the theorem's returned-obstacle clauses hold
there. -/
theorem ray_cast_nearest_witness :
    Obstacle.overlapsAltitude boxA 50 30 = true ∧
    rayHit (fun q => q) 50 0 0 1 0 500 boxA =
      some (rayCast (fun q => q) [boxA] 0 0 50 1 0 500).1 ∧
    (rayCast (fun q => q) [boxA] 0 0 50 1 0 500).1 < 500 := by
  have hsnd : (rayCast (fun q => q) [boxA] 0 0 50 1 0 500).2 = some boxA := by
    norm_num [rayCast, rayCastStep, rayHit, Obstacle.overlapsAltitude,
      Obstacle.rayIntersect2d, Obstacle.rayAabbIntersect, axisSlab,
      slabCombine, slabEps, slabBig, boxA]
  have h := (ray_cast_nearest (fun q => q) [boxA] 0 0 50 1 0 500).2.2.1 boxA hsnd
  exact ⟨h.1, h.2.1, h.2.2.1⟩

/-- Obstacles rejected by the altitude gate never influence the fold. -/
theorem rayCast_fold_filter (sq : ℚ → ℚ) (oz ox oy dx dy maxR : ℚ) :
    ∀ (l : List Obstacle) (acc : ℚ × Option Obstacle),
      l.foldl (rayCastStep sq oz ox oy dx dy maxR) acc =
        (l.filter fun o => o.overlapsAltitude oz 30).foldl
          (rayCastStep sq oz ox oy dx dy maxR) acc := by
  intro l
  induction l with
  | nil => intro acc; rfl
  | cons o rest ih =>
      intro acc
      cases hg : o.overlapsAltitude oz 30 with
      | true =>
          rw [List.foldl_cons]
          rw [show List.filter (fun o => o.overlapsAltitude oz 30) (o :: rest) =
              o :: List.filter (fun o => o.overlapsAltitude oz 30) rest by
            simp [List.filter_cons, hg]]
          rw [List.foldl_cons]
          exact ih _
      | false =>
          have hstep : rayCastStep sq oz ox oy dx dy maxR acc o = acc := by
            unfold rayCastStep rayHit
            rw [hg]
            simp
          rw [List.filter_cons_of_neg (by simp [hg]), List.foldl_cons, hstep]
          exact ih acc

/-- Claim C10: `ray_cast` gates obstacles by altitude with the fixed 30 cm
margin.  The gate is exactly `oz + 30 ≥ z_base ∧ oz − 30 ≤ z_base + height`;
obstacles failing it do not participate (filtering them out leaves every ray
cast unchanged), any returned obstacle satisfies it, and a ray genuinely can
hit an obstacle whose vertical extent ends 30 cm below the query altitude
(`boxA` is 70 cm tall and is hit from altitude 100). -/
theorem ray_cast_altitude_margin (sq : ℚ → ℚ) (env : List Obstacle)
    (ox oy oz dx dy maxR : ℚ) :
    (∀ o : Obstacle, o.overlapsAltitude oz 30 = true ↔
      (oz + 30 ≥ o.z_base ∧ oz - 30 ≤ o.z_base + o.height)) ∧
    rayCast sq env ox oy oz dx dy maxR =
      rayCast sq (env.filter fun o => o.overlapsAltitude oz 30)
        ox oy oz dx dy maxR ∧
    (∀ o, (rayCast sq env ox oy oz dx dy maxR).2 = some o →
      oz + 30 ≥ o.z_base ∧ oz - 30 ≤ o.z_base + o.height) ∧
    rayCast (fun q => q) [boxA] 0 0 100 1 0 500 = (3, some boxA) := by
  refine ⟨?_, ?_, ?_, ?_⟩
  · intro o
    unfold Obstacle.overlapsAltitude
    rw [decide_eq_true_eq]
  · unfold rayCast
    exact rayCast_fold_filter sq oz ox oy dx dy maxR env (maxR, none)
  · intro o ho
    unfold rayCast at ho
    obtain ⟨h1, h2, h3⟩ :=
      rayCast_fold_char sq oz ox oy dx dy maxR env (maxR, none)
    rcases h3 with heq | ⟨pre, o', suf, hdec, hhit, hsnd, hlt, hpre⟩
    · rw [heq] at ho
      simp at ho
    · have ho' : o' = o := by
        rw [hsnd] at ho
        injection ho
      rw [ho'] at hhit
      have hov := rayHit_some_overlaps sq oz ox oy dx dy maxR o hhit
      unfold Obstacle.overlapsAltitude at hov
      rw [decide_eq_true_eq] at hov
      exact hov
  · norm_num [rayCast, rayCastStep, rayHit, Obstacle.overlapsAltitude,
      Obstacle.rayIntersect2d, Obstacle.rayAabbIntersect, axisSlab,
      slabCombine, slabEps, slabBig, boxA]

/-- Witness for `ray_cast_altitude_margin`: instantiating the returned-
obstacle clause on the concrete scene. -/
theorem ray_cast_altitude_margin_witness :
    (100 : ℚ) + 30 ≥ boxA.z_base ∧ (100 : ℚ) - 30 ≤ boxA.z_base + boxA.height := by
  have hsnd : (rayCast (fun q => q) [boxA] 0 0 100 1 0 500).2 = some boxA := by
    norm_num [rayCast, rayCastStep, rayHit, Obstacle.overlapsAltitude,
      Obstacle.rayIntersect2d, Obstacle.rayAabbIntersect, axisSlab,
      slabCombine, slabEps, slabBig, boxA]
  exact (ray_cast_altitude_margin (fun q => q) [boxA] 0 0 100 1 0 500).2.2.1
    boxA hsnd

/-! ## The five-zone split (claims C2 and C9) -/

theorem zoneSlice_length_lt4 (n : ℕ) (depths : List ℚ) (h : depths.length = n)
    {z : ℕ} (hz : z < 4) : (zoneSlice n depths z).length = n / 5 := by
  unfold zoneSlice
  rw [if_pos hz, List.length_take, List.length_drop, h]
  have h5 := Nat.div_mul_le_self n 5
  interval_cases z <;> omega

theorem zoneSlice_length4 (n : ℕ) (depths : List ℚ) (h : depths.length = n) :
    (zoneSlice n depths 4).length = n - 4 * (n / 5) := by
  unfold zoneSlice
  rw [if_neg (by omega), List.length_take, List.length_drop, h]
  omega

theorem zoneSlice_append (n : ℕ) (depths : List ℚ) (h : depths.length = n) :
    zoneSlice n depths 0 ++ (zoneSlice n depths 1 ++ (zoneSlice n depths 2 ++
      (zoneSlice n depths 3 ++ zoneSlice n depths 4))) = depths := by
  have key : ∀ k : ℕ, (depths.drop k).take (n / 5) ++ depths.drop (k + n / 5) =
      depths.drop k := by
    intro k
    conv_rhs => rw [← List.take_append_drop (n / 5) (depths.drop k)]
    rw [List.drop_drop, Nat.add_comm]
  have hlast : (depths.drop (4 * (n / 5))).take (n - 4 * (n / 5)) =
      depths.drop (4 * (n / 5)) :=
    List.take_of_length_le (by rw [List.length_drop, h])
  unfold zoneSlice
  norm_num
  rw [hlast]
  have e3 := key (3 * (n / 5))
  rw [show 3 * (n / 5) + n / 5 = 4 * (n / 5) by ring] at e3
  rw [e3]
  have e2 := key (2 * (n / 5))
  rw [show 2 * (n / 5) + n / 5 = 3 * (n / 5) by ring] at e2
  rw [e2]
  have e1 := key (n / 5)
  rw [show n / 5 + n / 5 = 2 * (n / 5) by ring] at e1
  rw [e1]
  have e0 := key 0
  rw [Nat.zero_add, List.drop_zero] at e0
  rw [e0]

/-- Claim C2 (amended): the avoidance policy splits the `n` ray depths into
five contiguous slices that exactly partition the scan in order — far-left,
left (zones 0, 1), center (2), right, far-right (3, 4) — and uses the `min`
depth of each slice; but the slices are *not* in general equal: zones 0–3
hold `n / 5` rays each while zone 4 receives the remainder
`n − 4·(n / 5)`, so all five are equal iff `5 ∣ n` (false for the default
48-ray frame). -/
theorem zones_partition (n : ℕ) (depths : List ℚ) (h : depths.length = n) :
    ((zoneSlice n depths 0).length = n / 5 ∧
     (zoneSlice n depths 1).length = n / 5 ∧
     (zoneSlice n depths 2).length = n / 5 ∧
     (zoneSlice n depths 3).length = n / 5 ∧
     (zoneSlice n depths 4).length = n - 4 * (n / 5)) ∧
    zoneSlice n depths 0 ++ (zoneSlice n depths 1 ++ (zoneSlice n depths 2 ++
      (zoneSlice n depths 3 ++ zoneSlice n depths 4))) = depths ∧
    ((zoneSlice n depths 4).length = n / 5 ↔ 5 ∣ n) ∧
    (∀ a b c d e : ℚ,
      (zoneSlice n depths 0).min? = some a →
      (zoneSlice n depths 1).min? = some b →
      (zoneSlice n depths 2).min? = some c →
      (zoneSlice n depths 3).min? = some d →
      (zoneSlice n depths 4).min? = some e →
      zoneMins n depths = some (a, b, c, d, e)) := by
  refine ⟨⟨?_, ?_, ?_, ?_, ?_⟩, zoneSlice_append n depths h, ?_, ?_⟩
  · exact zoneSlice_length_lt4 n depths h (by omega)
  · exact zoneSlice_length_lt4 n depths h (by omega)
  · exact zoneSlice_length_lt4 n depths h (by omega)
  · exact zoneSlice_length_lt4 n depths h (by omega)
  · exact zoneSlice_length4 n depths h
  · rw [zoneSlice_length4 n depths h]
    omega
  · intro a b c d e h0 h1 h2 h3 h4
    unfold zoneMins
    rw [h0, h1, h2, h3, h4]

/-- Claim C2 (counterexample): for the default 48-ray camera frame the five
zones are not equally sized — zones 0–3 hold 9 rays each while zone 4 holds
12. -/
theorem zones_unequal_48_cex :
    (zoneSlice 48 (List.replicate 48 (500 : ℚ)) 0).length = 9 ∧
    (zoneSlice 48 (List.replicate 48 (500 : ℚ)) 3).length = 9 ∧
    (zoneSlice 48 (List.replicate 48 (500 : ℚ)) 4).length = 12 ∧
    (9 : ℕ) ≠ 12 := by
  refine ⟨?_, ?_, ?_, by norm_num⟩
  · rw [zoneSlice_length_lt4 48 (List.replicate 48 (500 : ℚ)) (by simp) (by norm_num)]
  · rw [zoneSlice_length_lt4 48 (List.replicate 48 (500 : ℚ)) (by simp) (by norm_num)]
  · rw [zoneSlice_length4 48 (List.replicate 48 (500 : ℚ)) (by simp)]

/-- Witness for `zones_partition`: the 48-ray frame instantiation. -/
theorem zones_partition_witness :
    ((zoneSlice 48 (List.replicate 48 (500 : ℚ)) 0).length = 48 / 5) ∧
    ((zoneSlice 48 (List.replicate 48 (500 : ℚ)) 4).length = 48 - 4 * (48 / 5)) := by
  have h := zones_partition 48 (List.replicate 48 (500 : ℚ)) (by simp)
  exact ⟨h.1.1, h.1.2.2.2.2⟩

theorem min?_isSome_of_ne_nil {l : List ℚ} (h : l ≠ []) :
    l.min?.isSome = true := by
  cases l with
  | nil => exact absurd rfl h
  | cons a as => rfl

/-- Claim C9: the avoidance policy's zone computation is total exactly when
the frame has at least 5 rays.  With `n ≥ 5` every one of the five slices is
non-empty, every zone minimum exists, and the command computation succeeds;
with `1 ≤ n < 5` the first four slices are empty, so the Python
`min([])` error branch is reachable. -/
theorem zones_totality (n : ℕ) (depths : List ℚ) (h : depths.length = n) :
    (5 ≤ n →
      (∀ z, z < 5 → zoneSlice n depths z ≠ []) ∧
      (zoneMins n depths).isSome = true ∧
      (∀ yaw z gb ga, (computeCommands depths n yaw z gb ga).isSome = true)) ∧
    (1 ≤ n → n < 5 → ∀ z, z < 4 → zoneSlice n depths z = []) := by
  constructor
  · intro hn
    have hzs : 1 ≤ n / 5 := by omega
    have hlen : ∀ z, z < 5 → (zoneSlice n depths z).length ≠ 0 := by
      intro z hz
      by_cases hz4 : z < 4
      · rw [zoneSlice_length_lt4 n depths h hz4]
        omega
      · have hz' : z = 4 := by omega
        subst hz'
        rw [zoneSlice_length4 n depths h]
        have h5 := Nat.div_mul_le_self n 5
        omega
    have hne : ∀ z, z < 5 → zoneSlice n depths z ≠ [] := by
      intro z hz hnil
      exact hlen z hz (by rw [hnil]; rfl)
    refine ⟨hne, ?_, ?_⟩
    · have h0 := min?_isSome_of_ne_nil (hne 0 (by omega))
      have h1 := min?_isSome_of_ne_nil (hne 1 (by omega))
      have h2 := min?_isSome_of_ne_nil (hne 2 (by omega))
      have h3 := min?_isSome_of_ne_nil (hne 3 (by omega))
      have h4 := min?_isSome_of_ne_nil (hne 4 (by omega))
      obtain ⟨a, ha⟩ := Option.isSome_iff_exists.mp h0
      obtain ⟨b, hb⟩ := Option.isSome_iff_exists.mp h1
      obtain ⟨c, hc⟩ := Option.isSome_iff_exists.mp h2
      obtain ⟨d, hd⟩ := Option.isSome_iff_exists.mp h3
      obtain ⟨e, he⟩ := Option.isSome_iff_exists.mp h4
      unfold zoneMins
      rw [ha, hb, hc, hd, he]
      rfl
    · intro yaw z gb ga
      have h0 := min?_isSome_of_ne_nil (hne 0 (by omega))
      have h1 := min?_isSome_of_ne_nil (hne 1 (by omega))
      have h2 := min?_isSome_of_ne_nil (hne 2 (by omega))
      have h3 := min?_isSome_of_ne_nil (hne 3 (by omega))
      have h4 := min?_isSome_of_ne_nil (hne 4 (by omega))
      obtain ⟨a, ha⟩ := Option.isSome_iff_exists.mp h0
      obtain ⟨b, hb⟩ := Option.isSome_iff_exists.mp h1
      obtain ⟨c, hc⟩ := Option.isSome_iff_exists.mp h2
      obtain ⟨d, hd⟩ := Option.isSome_iff_exists.mp h3
      obtain ⟨e, he⟩ := Option.isSome_iff_exists.mp h4
      have hzm : zoneMins n depths = some (a, b, c, d, e) := by
        unfold zoneMins
        rw [ha, hb, hc, hd, he]
      unfold computeCommands
      rw [hzm]
      dsimp only
      split_ifs <;> rfl
  · intro hn1 hn5 z hz
    unfold zoneSlice
    rw [if_pos hz]
    have hzs : n / 5 = 0 := by omega
    rw [hzs, List.take_zero]

/-- Witness for `zones_totality`: the default 48-ray frame is total, and a
2-ray frame leaves zone 0 empty. -/
theorem zones_totality_witness :
    (zoneMins 48 (List.replicate 48 (500 : ℚ))).isSome = true ∧
    zoneSlice 2 [(500 : ℚ), 500] 0 = [] := by
  constructor
  · exact ((zones_totality 48 (List.replicate 48 (500 : ℚ))
      (by simp)).1 (by norm_num)).2.1
  · exact (zones_totality 2 [(500 : ℚ), 500] (by simp)).2 (by norm_num)
      (by norm_num) 0 (by norm_num)

/-! ## The clear regime of the avoidance policy (claim C7) -/

/-- Claim C7 (amended): in the clear regime (center-zone minimum at least
`SAFETY = 100`) with both peripheral zone minima at least `0.6·SAFETY = 60`,
the emitted RC command is exactly the pure goal-seeking output — with the RC
values cast through Python's `int(...)` (truncation toward zero):
`yaw_cmd = int(clamp(heading_error · 0.8, −60, 60))` for
`heading_error = ((goal_bearing − yaw + 180) mod 360) − 180`,
`fwd_cmd = CRUISE = 45`,
`alt_cmd = int(clamp((goal_z − z) · 0.5, −30, 30))`, and lateral stick 0. -/
theorem clear_regime_goal_seeking (depths : List ℚ) (n : ℕ)
    (yaw z gb ga z0 z1 z2 z3 z4 : ℚ)
    (hzm : zoneMins n depths = some (z0, z1, z2, z3, z4))
    (hc : safetyDistance ≤ z2)
    (h0 : safetyDistance * (3 / 5) ≤ z0)
    (h4 : safetyDistance * (3 / 5) ≤ z4) :
    computeCommands depths n yaw z gb ga =
      some (pyInt (max (-60) (min 60 ((qmod (gb - yaw + 180) 360 - 180) * (4 / 5)))),
            cruiseSpeed,
            pyInt (max (-30) (min 30 ((ga - z) * (1 / 2))))) ∧
    navRcOf (pyInt (max (-60) (min 60 ((qmod (gb - yaw + 180) 360 - 180) * (4 / 5)))),
             cruiseSpeed,
             pyInt (max (-30) (min 30 ((ga - z) * (1 / 2))))) =
      (0, cruiseSpeed,
       pyInt (max (-30) (min 30 ((ga - z) * (1 / 2)))),
       pyInt (max (-60) (min 60 ((qmod (gb - yaw + 180) 360 - 180) * (4 / 5))))) := by
  constructor
  · unfold computeCommands
    rw [hzm]
    dsimp only
    have hcrit : ¬ z2 < criticalDistance := by
      unfold criticalDistance
      unfold safetyDistance at hc
      push_neg
      linarith
    have hsafe : ¬ z2 < safetyDistance := not_lt.mpr hc
    rw [if_neg hcrit, if_neg hsafe, if_neg (not_lt.mpr h0), if_neg (not_lt.mpr h4)]
  · rfl

/-- Claim C7 (counterexample): at `heading_error = 1` (goal bearing 1°, yaw
0°) under totally clear skies the claimed yaw command
`clamp(heading_error·0.8, −60, 60) = 0.8` is fractional, while the code's
`int(...)` cast truncates it to `0`: the emitted command is
`(yaw, fwd, alt) = (0, 45, 0)`, not `(0.8, 45, 0)`. -/
theorem clear_regime_truncation_cex :
    computeCommands (List.replicate 5 (500 : ℚ)) 5 0 0 1 0 = some (0, 45, 0) ∧
    qmod ((1 : ℚ) - 0 + 180) 360 - 180 = 1 ∧
    max (-60 : ℚ) (min 60 ((1 : ℚ) * (4 / 5))) = 4 / 5 ∧
    ((0 : ℚ) ≠ 4 / 5) := by
  have hq : qmod ((1 : ℚ) - 0 + 180) 360 - 180 = 1 := by
    unfold qmod
    norm_num
  refine ⟨?_, hq, by norm_num, by norm_num⟩
  have hzm : zoneMins 5 (List.replicate 5 (500 : ℚ)) =
      some (500, 500, 500, 500, 500) := by
    unfold zoneMins zoneSlice
    norm_num [List.min?]
  unfold computeCommands
  rw [hzm]
  dsimp only
  rw [if_neg (by unfold criticalDistance; norm_num),
      if_neg (by unfold safetyDistance; norm_num),
      if_neg (by unfold safetyDistance; norm_num),
      if_neg (by unfold safetyDistance; norm_num)]
  rw [hq]
  norm_num [pyInt, cruiseSpeed]

/-- Witness for `clear_regime_goal_seeking`: a fully clear 5-ray frame. -/
theorem clear_regime_goal_seeking_witness :
    computeCommands (List.replicate 5 (500 : ℚ)) 5 10 0 10 0 =
      some (pyInt (max (-60) (min 60 ((qmod ((10 : ℚ) - 10 + 180) 360 - 180) * (4 / 5)))),
            cruiseSpeed,
            pyInt (max (-30) (min 30 (((0 : ℚ) - 0) * (1 / 2))))) := by
  have hzm : zoneMins 5 (List.replicate 5 (500 : ℚ)) =
      some (500, 500, 500, 500, 500) := by
    unfold zoneMins zoneSlice
    norm_num [List.min?]
  exact (clear_regime_goal_seeking (List.replicate 5 (500 : ℚ)) 5 10 0 10 0
    500 500 500 500 500 hzm (by unfold safetyDistance; norm_num)
    (by unfold safetyDistance; norm_num) (by unfold safetyDistance; norm_num)).1

/-! ## The simulated backend invariant (claims C4 and C5) -/

theorem stateInv_drain {st : SimState} (h : stateInv st) {sec : ℚ}
    (hs : 0 ≤ sec) : stateInv (drainBattery st sec) := by
  obtain ⟨h1, h2, h3, h4, h5, h6, h7⟩ := h
  unfold stateInv drainBattery
  refine ⟨le_max_left 0 _, ?_, h3, h4, h5, min_le_left _ _, h7⟩
  exact max_le (by norm_num) (by linarith)

theorem connect_inv {d : SimDrone} (h : droneInv d) : droneInv d.connect := by
  obtain ⟨⟨h1, h2, h3, h4, h5, h6, h7⟩, hs1, hs2⟩ := h
  unfold SimDrone.connect droneInv stateInv
  dsimp only
  exact ⟨⟨by norm_num, by norm_num, h3, h4, h5, by norm_num, fun _ => rfl⟩,
    hs1, hs2⟩

theorem emergencyStop_inv {d : SimDrone} (h : droneInv d) :
    droneInv d.emergencyStop := by
  obtain ⟨⟨h1, h2, h3, h4, h5, h6, h7⟩, hs1, hs2⟩ := h
  unfold SimDrone.emergencyStop droneInv stateInv
  dsimp only
  exact ⟨⟨h1, h2, le_refl 0, h4, h5, h6, fun hf => absurd hf (by simp)⟩,
    hs1, hs2⟩

theorem disconnect_inv {d : SimDrone} (h : droneInv d) :
    droneInv d.disconnect := by
  obtain ⟨⟨h1, h2, h3, h4, h5, h6, h7⟩, hs1, hs2⟩ := h
  unfold SimDrone.disconnect SimDrone.emergencyStop droneInv stateInv
  dsimp only
  exact ⟨⟨h1, h2, le_refl 0, h4, h5, h6, fun hf => absurd hf (by simp)⟩,
    hs1, hs2⟩

theorem takeoff_inv {d : SimDrone} (h : droneInv d) : droneInv d.takeoff := by
  obtain ⟨⟨h1, h2, h3, h4, h5, h6, h7⟩, hs1, hs2⟩ := h
  unfold SimDrone.takeoff droneInv stateInv
  split_ifs with hcond
  · rw [Bool.and_eq_true, Bool.not_eq_true'] at hcond
    dsimp only
    exact ⟨⟨h1, h2, by norm_num, h4, h5, h6, fun _ => hcond.1⟩, hs1, hs2⟩
  · exact ⟨⟨h1, h2, h3, h4, h5, h6, h7⟩, hs1, hs2⟩

theorem land_inv {d : SimDrone} (h : droneInv d) : droneInv d.land := by
  obtain ⟨⟨h1, h2, h3, h4, h5, h6, h7⟩, hs1, hs2⟩ := h
  unfold SimDrone.land droneInv stateInv
  dsimp only
  split_ifs with hcond
  · dsimp only
    exact ⟨⟨h1, h2, le_refl 0, h4, h5, h6, fun hf => absurd hf (by simp)⟩,
      hs1, hs2⟩
  · exact ⟨⟨h1, h2, h3, h4, h5, h6, h7⟩, hs1, hs2⟩

theorem move_inv {d : SimDrone} (h : droneInv d) (dir : MoveDir)
    (dist c s : ℚ) : droneInv (d.move dir dist c s) := by
  obtain ⟨⟨h1, h2, h3, h4, h5, h6, h7⟩, hs1, hs2⟩ := h
  unfold SimDrone.move
  split_ifs with hfly hneg
  · exact ⟨⟨h1, h2, h3, h4, h5, h6, h7⟩, hs1, hs2⟩
  · exact ⟨⟨h1, h2, h3, h4, h5, h6, h7⟩, hs1, hs2⟩
  · push_neg at hneg
    have hdur : 0 ≤ dist / d.speedSet := div_nonneg hneg (by linarith)
    have hmoved : ∀ mx my mz : ℚ, stateInv (drainBattery { d.state with x := mx, y := my, z := max 0 mz } (dist / d.speedSet)) := by
      intro mx my mz
      refine stateInv_drain ?_ hdur
      exact ⟨h1, h2, le_max_left 0 mz, h4, h5, h6, h7⟩
    cases dir <;> exact ⟨hmoved _ _ _, hs1, hs2⟩

theorem rotate_inv {d : SimDrone} (h : droneInv d) (degrees : ℚ) :
    droneInv (d.rotate degrees) := by
  obtain ⟨⟨h1, h2, h3, h4, h5, h6, h7⟩, hs1, hs2⟩ := h
  unfold SimDrone.rotate droneInv stateInv
  split_ifs with hfly
  · dsimp only
    exact ⟨⟨h1, h2, h3, qmod_nonneg _ (by norm_num), qmod_lt _ (by norm_num),
      h6, h7⟩, hs1, hs2⟩
  · exact ⟨⟨h1, h2, h3, h4, h5, h6, h7⟩, hs1, hs2⟩

theorem setSpeed_inv {d : SimDrone} (h : droneInv d) (v : ℚ) :
    droneInv (d.setSpeed v) := by
  obtain ⟨hst, hs1, hs2⟩ := h
  unfold SimDrone.setSpeed droneInv
  dsimp only
  exact ⟨hst, le_max_left 10 _, max_le (by norm_num) (min_le_left 100 v)⟩

theorem sendRc_inv {d : SimDrone} (h : droneInv d) (a b c e : ℚ) :
    droneInv (d.sendRc a b c e) := by
  obtain ⟨hst, hs1, hs2⟩ := h
  unfold SimDrone.sendRc droneInv
  dsimp only
  exact ⟨hst, hs1, hs2⟩

theorem goToStep_inv (sx sy sz tx ty tz speed dt frac : ℚ) {d : SimDrone}
    (hdt : 0 ≤ dt) (h : droneInv d) :
    droneInv (goToStep sx sy sz tx ty tz speed dt frac d) := by
  obtain ⟨⟨h1, h2, h3, h4, h5, h6, h7⟩, hs1, hs2⟩ := h
  unfold goToStep droneInv
  dsimp only
  refine ⟨?_, hs1, hs2⟩
  refine stateInv_drain ?_ hdt
  exact ⟨h1, h2, le_max_left 0 _, h4, h5, h6, h7⟩

theorem foldl_inv {α : Type} (P : SimDrone → Prop) (f : SimDrone → α → SimDrone)
    (hf : ∀ d a, P d → P (f d a)) :
    ∀ (l : List α) (d : SimDrone), P d → P (l.foldl f d) := by
  intro l
  induction l with
  | nil => intro d hd; exact hd
  | cons a as ih => intro d hd; exact ih _ (hf d a hd)

theorem goTo_inv {d : SimDrone} (h : droneInv d) (tx ty tz speed : ℚ)
    {dist : ℚ} (hdist : 0 ≤ dist) : droneInv (d.goTo tx ty tz speed dist) := by
  unfold SimDrone.goTo
  split_ifs with hfly hnear
  · exact h
  · exact h
  · have hdur : 0 ≤ dist / max speed 10 :=
      div_nonneg hdist (le_trans (by norm_num) (le_max_right speed 10))
    have hdt : 0 ≤ dist / max speed 10 /
        ((max (pyInt (dist / max speed 10 * 10)).toNat 1 : ℕ) : ℚ) :=
      div_nonneg hdur (by positivity)
    exact foldl_inv droneInv _
      (fun d' i hd' => goToStep_inv _ _ _ _ _ _ _ _ _ hdt hd') _ d h

theorem rcTick_inv {d : SimDrone} (h : droneInv d) (c s norm : ℚ) :
    droneInv (d.rcTick c s norm) := by
  obtain ⟨⟨h1, h2, h3, h4, h5, h6, h7⟩, hs1, hs2⟩ := h
  unfold SimDrone.rcTick
  split_ifs with hfly
  · exact ⟨⟨h1, h2, h3, h4, h5, h6, h7⟩, hs1, hs2⟩
  · refine ⟨?_, hs1, hs2⟩
    refine stateInv_drain ?_ (by norm_num)
    exact ⟨h1, h2, le_max_left 0 _, qmod_nonneg _ (by norm_num),
      qmod_lt _ (by norm_num), h6, h7⟩

theorem initDrone_inv : droneInv initDrone := by
  unfold droneInv stateInv initDrone initState
  refine ⟨⟨by norm_num, by norm_num, le_refl 0, le_refl 0, by norm_num,
    by norm_num, fun hf => absurd hf (by simp)⟩, by norm_num, by norm_num⟩

/-- Claim C4: every operation of the simulated backend — `connect`,
`disconnect`, `takeoff`, `land`, `emergency_stop`, `move`, `rotate`,
`set_speed`, `send_rc`, `go_to` and each RC-integrator tick — preserves the
state invariant `0 ≤ battery ≤ 100 ∧ z ≥ 0 ∧ yaw ∈ [0, 360) ∧
temperature ≤ 45 ∧ (is_flying → is_connected)` (strengthened with the speed
setpoint's own clamp range `[10, 100]`, which every reachable backend state
satisfies), and the invariant holds of a fresh backend. -/
theorem sim_ops_preserve_inv (d : SimDrone) (h : droneInv d) :
    droneInv initDrone ∧
    droneInv d.connect ∧
    droneInv d.disconnect ∧
    droneInv d.takeoff ∧
    droneInv d.land ∧
    droneInv d.emergencyStop ∧
    (∀ dir dist c s, droneInv (d.move dir dist c s)) ∧
    (∀ degrees, droneInv (d.rotate degrees)) ∧
    (∀ v, droneInv (d.setSpeed v)) ∧
    (∀ a b c e, droneInv (d.sendRc a b c e)) ∧
    (∀ tx ty tz speed dist, 0 ≤ dist → droneInv (d.goTo tx ty tz speed dist)) ∧
    (∀ c s norm, droneInv (d.rcTick c s norm)) :=
  ⟨initDrone_inv, connect_inv h, disconnect_inv h, takeoff_inv h, land_inv h,
   emergencyStop_inv h,
   fun dir dist c s => move_inv h dir dist c s,
   fun degrees => rotate_inv h degrees,
   fun v => setSpeed_inv h v,
   fun a b c e => sendRc_inv h a b c e,
   fun tx ty tz speed _dist hdist => goTo_inv h tx ty tz speed hdist,
   fun c s norm => rcTick_inv h c s norm⟩

/-- Witness for `sim_ops_preserve_inv`: the fresh backend satisfies the
invariant and keeps it across a takeoff and an RC tick. -/
theorem sim_ops_preserve_inv_witness :
    droneInv initDrone ∧ droneInv initDrone.takeoff ∧
    droneInv (initDrone.rcTick 1 0 0) :=
  ⟨initDrone_inv,
   (sim_ops_preserve_inv initDrone initDrone_inv).2.2.2.1,
   (sim_ops_preserve_inv initDrone initDrone_inv).2.2.2.2.2.2.2.2.2.2.2 1 0 0⟩

/-- Claim C5: one RC-integrator tick (interval `0.05 s`) on a flying state
updates the state exactly by `scale = speed·0.05/100`;
`x += (fb·cos yaw − lr·sin yaw)·scale`; `y += (fb·sin yaw + lr·cos yaw)·scale`;
`z = max(0, z + ud·scale)`; `yaw = (yaw + yaw_rate·0.9·0.05) mod 360`;
`speed = √(lr² + fb² + ud²)·s/100`; then battery drain `0.05·0.5 %` (floored
at 0) and temperature rise `0.05·0.1 °C` (capped at 45).  Here `(c, s)` stand
for `(cos yaw, sin yaw)` and `norm` for the computed square root. -/
theorem rc_tick_update (d : SimDrone) (c s norm : ℚ)
    (h : d.state.is_flying = true) :
    d.rcTick c s norm =
      { d with state :=
        { x := d.state.x + (d.rc.2.1 * c - d.rc.1 * s) * (d.speedSet * (1 / 20) / 100),
          y := d.state.y + (d.rc.2.1 * s + d.rc.1 * c) * (d.speedSet * (1 / 20) / 100),
          z := max 0 (d.state.z + d.rc.2.2.1 * (d.speedSet * (1 / 20) / 100)),
          yaw := qmod (d.state.yaw + d.rc.2.2.2 * (9 / 10) * (1 / 20)) 360,
          speed := norm * d.speedSet / 100,
          battery := max 0 (d.state.battery - (1 / 20) * (1 / 2)),
          temperature := min 45 (d.state.temperature + (1 / 20) * (1 / 10)),
          is_flying := d.state.is_flying,
          is_connected := d.state.is_connected } } := by
  obtain ⟨st, sp, ⟨lr, fb, ud, yr⟩⟩ := d
  simp only [SimDrone.rcTick, drainBattery] at *
  rw [h]
  rfl

/-- Witness for `rc_tick_update`: the hovering drone with sticks
`(3, 4, 0, 90)`. -/
theorem rc_tick_update_witness :
    flyingDrone.state.is_flying = true ∧
    flyingDrone.rcTick 1 0 5 =
      { flyingDrone with state :=
        { x := flyingDrone.state.x +
            (flyingDrone.rc.2.1 * 1 - flyingDrone.rc.1 * 0) *
              (flyingDrone.speedSet * (1 / 20) / 100),
          y := flyingDrone.state.y +
            (flyingDrone.rc.2.1 * 0 + flyingDrone.rc.1 * 1) *
              (flyingDrone.speedSet * (1 / 20) / 100),
          z := max 0 (flyingDrone.state.z +
            flyingDrone.rc.2.2.1 * (flyingDrone.speedSet * (1 / 20) / 100)),
          yaw := qmod (flyingDrone.state.yaw +
            flyingDrone.rc.2.2.2 * (9 / 10) * (1 / 20)) 360,
          speed := 5 * flyingDrone.speedSet / 100,
          battery := max 0 (flyingDrone.state.battery - (1 / 20) * (1 / 2)),
          temperature := min 45 (flyingDrone.state.temperature + (1 / 20) * (1 / 10)),
          is_flying := flyingDrone.state.is_flying,
          is_connected := flyingDrone.state.is_connected } } :=
  ⟨rfl, rc_tick_update flyingDrone 1 0 5 rfl⟩

/-! ## `load_plan` (claim C6) -/

/-- Claim C6: `Autopilot.load_plan(p)` raises exactly when a plan is loaded
with status RUNNING, and then leaves the previously loaded plan untouched; on
acceptance the loaded plan is `p` reset to status IDLE with
`current_index = 0` and every waypoint PENDING. -/
theorem loadPlan_accept (p q : FlightPlan) (hq : loadPlan none p = .ok q) :
    q.status = .idle ∧ q.currentIndex = 0 ∧
    ∀ w ∈ q.waypoints, w.status = .pending := by
  unfold loadPlan at hq
  injection hq with hq
  subst hq
  refine ⟨rfl, rfl, ?_⟩
  intro w hw
  rw [List.mem_map] at hw
  obtain ⟨w0, _, rfl⟩ := hw
  rfl

/-- Claim C6: `Autopilot.load_plan(p)` raises exactly when a plan is loaded
with status RUNNING, and then leaves the previously loaded plan untouched; on
acceptance the loaded plan is `p` reset to status IDLE with
`current_index = 0` and every waypoint PENDING. -/
theorem load_plan_spec (cur : Option FlightPlan) (p : FlightPlan) :
    ((∃ e, loadPlan cur p = .error e) ↔
      ∃ q, cur = some q ∧ q.status = .running) ∧
    (∀ e, loadPlan cur p = .error e → planAfterLoad cur p = cur) ∧
    (∀ q, loadPlan cur p = .ok q →
      planAfterLoad cur p = some q ∧ q.status = .idle ∧ q.currentIndex = 0 ∧
      ∀ w ∈ q.waypoints, w.status = .pending) := by
  rcases cur with _ | q0
  · refine ⟨⟨?_, ?_⟩, ?_, ?_⟩
    · rintro ⟨e, he⟩
      exact absurd he (by unfold loadPlan; simp)
    · rintro ⟨q, hq, _⟩
      exact Option.noConfusion hq
    · intro e he
      exact absurd he (by unfold loadPlan; simp)
    · intro q hq
      refine ⟨?_, loadPlan_accept p q hq⟩
      unfold planAfterLoad
      rw [hq]
  · by_cases hr : q0.status = .running
    · have herr : loadPlan (some q0) p =
          .error "A flight plan is already running - abort it first" := by
        unfold loadPlan
        dsimp only
        rw [if_pos hr]
      refine ⟨⟨?_, ?_⟩, ?_, ?_⟩
      · intro _
        exact ⟨q0, rfl, hr⟩
      · intro _
        exact ⟨_, herr⟩
      · intro e he
        unfold planAfterLoad
        rw [herr]
      · intro q hq
        rw [herr] at hq
        exact Except.noConfusion hq
    · have hsame : loadPlan (some q0) p = loadPlan none p := by
        unfold loadPlan
        dsimp only
        rw [if_neg hr]
      refine ⟨⟨?_, ?_⟩, ?_, ?_⟩
      · rintro ⟨e, he⟩
        rw [hsame] at he
        exact absurd he (by unfold loadPlan; simp)
      · rintro ⟨q, hq, hq'⟩
        injection hq with hq
        subst hq
        exact absurd hq' hr
      · intro e he
        rw [hsame] at he
        exact absurd he (by unfold loadPlan; simp)
      · intro q hq
        rw [hsame] at hq
        refine ⟨?_, loadPlan_accept p q hq⟩
        unfold planAfterLoad
        rw [hsame, hq]

/-- Witness for `load_plan_spec`: loading `samplePlan` into an idle autopilot
resets it, and loading anything while `runningPlan` is RUNNING raises. -/
theorem load_plan_spec_witness :
    (planAfterLoad none samplePlan = some loadedSample ∧
      loadedSample.status = .idle ∧ loadedSample.currentIndex = 0 ∧
      ∀ w ∈ loadedSample.waypoints, w.status = .pending) ∧
    (∃ e, loadPlan (some runningPlan) samplePlan = .error e) :=
  ⟨(load_plan_spec none samplePlan).2.2 loadedSample rfl,
   (load_plan_spec (some runningPlan) samplePlan).1.mpr ⟨runningPlan, rfl, rfl⟩⟩

/-! ## `check_collision` at obstacle centres (claim C8) -/

/-- Claim C8 (amended): for every obstacle `o` of the environment with
positive width (and positive depth when it is a box) and non-negative
height, `check_collision((o.x, o.y, o.z_base), radius = 0)` returns true.
(`sq` is the `math.sqrt` oracle, pinned only at `sq 0 = 0`.) -/
theorem check_collision_center (sq : ℚ → ℚ) (env : List Obstacle)
    (o : Obstacle) (ho : o ∈ env) (hsq : sq 0 = 0)
    (hw : 0 < o.width) (hd : o.is_cylindrical = false → 0 < o.depth)
    (hh : 0 ≤ o.height) :
    checkCollision sq env o.x o.y o.z_base 0 = true := by
  unfold checkCollision
  rw [List.any_eq_true]
  refine ⟨o, ho, ?_⟩
  rw [Bool.and_eq_true]
  constructor
  · unfold Obstacle.overlapsAltitude
    rw [decide_eq_true_eq]
    constructor <;> linarith
  · cases hc : o.is_cylindrical with
    | true =>
        rw [if_pos rfl]
        rw [decide_eq_true_eq]
        rw [show (o.x - o.x) ^ 2 + (o.y - o.y) ^ 2 = 0 by ring, hsq]
        linarith
    | false =>
        rw [if_neg (by simp)]
        rw [decide_eq_true_eq]
        rw [sub_self, sub_self, abs_zero]
        constructor <;> linarith [hd hc]

/-- Claim C8 (counterexample): a degenerate zero-width cylindrical obstacle
defeats the claim — the strict `<` comparisons of `check_collision` make the
query at its own centre return false.  (`sq = id` agrees with `math.sqrt` at
the only point used, `sq 0 = 0`.) -/
theorem check_collision_center_cex :
    checkCollision (fun q => q)
      [{ x := 0, y := 0, z_base := 0, width := 0, depth := 0, height := 10,
         obstacle_type := .pillar, is_cylindrical := true }] 0 0 0 0 = false := by
  unfold checkCollision Obstacle.overlapsAltitude
  norm_num

/-- Witness for `check_collision_center`: the default scene's first tree
(a 50 cm-diameter cylinder at `(60, 280)`). -/
theorem check_collision_center_witness :
    checkCollision (fun q => q) [treeA] treeA.x treeA.y treeA.z_base 0 = true :=
  check_collision_center (fun q => q) [treeA] treeA (List.mem_singleton.mpr rfl)
    rfl (by norm_num [treeA]) (fun hc => by norm_num [treeA])
    (by norm_num [treeA])

end DroneControl
